import Mathlib

/-!
Shallow embedding of the CryptoV4 backtesting core
(`src/app/trading/backtester.py`, `src/app/trading/strategy_base.py`,
`src/app/trading/trading_utils.py`) and proofs about it.

Modelling conventions:
* Python floats are embedded as `ℚ` (exact arithmetic); real-valued
  formulas that use genuine powers or square roots (`**`, `np.sqrt`) are
  embedded in `ℝ`.
* In `ℚ`/`ℝ`, division by zero yields `0`; where the Python code maps a
  NaN result to `0.0` this coincides, and each such spot is noted.
* Candle timestamps are candle indices (`ℕ`); calendar durations are day
  counts (`ℕ`).
* Fallible Python code (exceptions caught by `Backtester.run`'s
  `try/except`) is embedded with `Option`: `none` is a failed run.
-/

namespace CryptoV4

/-- A price data frame.  The simulation engine reads only the `close`
column of each candle, so the raw OHLCV columns other than `close` are
carried by name only (in `baseCols`).  Strategies may attach derived
indicator columns (`extraCols`); a derived value is `none` where pandas
would hold `NaN` (a rolling window that is not yet full). -/
structure DataFrame where
  closes : List ℚ
  extraCols : List (String × List (Option ℚ))
deriving Repr

/-- Column names of the raw OHLCV frame fetched by
`fetch_ohlcv_dataframe` (timestamp is the index). -/
def baseCols : List String := ["open", "high", "low", "close", "volume"]

/-- `len(data)` : number of candles. -/
def DataFrame.length (df : DataFrame) : ℕ := df.closes.length

/-- `data.columns` : the raw columns plus any derived indicator columns. -/
def DataFrame.cols (df : DataFrame) : List String :=
  baseCols ++ df.extraCols.map Prod.fst

/-- `data.iloc[:n].copy()` : the first `n` rows of every column. -/
def DataFrame.take (df : DataFrame) (n : ℕ) : DataFrame :=
  ⟨df.closes.take n, df.extraCols.map (fun c => (c.1, c.2.take n))⟩

/-- `data[name]` for a derived column; `none` models the `KeyError`
raised when the column is absent. -/
def DataFrame.col (df : DataFrame) (name : String) : Option (List (Option ℚ)) :=
  (df.extraCols.find? (fun c => c.1 = name)).map Prod.snd

/-- `Strategy` (src/app/trading/strategy_base.py).  `generate_signal`
returns `none` when the Python implementation would raise (for example a
`KeyError` on a missing indicator column); the engine's `try/except`
turns that into a failed run. -/
structure Strategy where
  name : String
  min_required_candles : ℕ
  prepare_data : DataFrame → DataFrame
  generate_signal : DataFrame → Option Int

/-- `series.rolling(window=w).mean()` : `NaN` (here `none`) until the
window is full, then the arithmetic mean of the last `w` values. -/
def rollingMean (w : ℕ) (l : List ℚ) : List (Option ℚ) :=
  (List.range l.length).map (fun i =>
    if i + 1 < w then none
    else some (((l.drop (i + 1 - w)).take w).sum / (w : ℚ)))

/-- `MovingAverageStrategy.prepare_data` (strategy_base.py lines
144-161): work on a copy of the caller's frame and add the two moving
average columns. -/
def MovingAverageStrategy.prepare_data (short_window long_window : ℕ)
    (data : DataFrame) : DataFrame :=
  { data with extraCols := data.extraCols ++
      [("short_ma", rollingMean short_window data.closes),
       ("long_ma", rollingMean long_window data.closes)] }

/-- `MovingAverageStrategy.generate_signal` (strategy_base.py lines
163-194).  A missing indicator column is a `KeyError` (`none`); an
`iloc[-1]` on an empty column is an `IndexError` (`none`); a NaN current
value returns hold; comparisons against a NaN previous value are Python
`False`, falling through to hold. -/
def MovingAverageStrategy.generate_signal (long_window : ℕ)
    (data : DataFrame) : Option Int :=
  if data.length < long_window then some 0
  else
    match data.col "short_ma", data.col "long_ma" with
    | some shortMa, some longMa =>
      match shortMa.getLast?, longMa.getLast? with
      | some currentShort, some currentLong =>
        match currentShort, currentLong with
        | some cs, some cl =>
          if 1 < data.length then
            match shortMa.getD (shortMa.length - 2) none,
                  longMa.getD (longMa.length - 2) none with
            | some ps, some pl =>
              if ps ≤ pl ∧ cl < cs then some 1
              else if pl ≤ ps ∧ cs < cl then some (-1)
              else some 0
            | _, _ => some 0
          else some 0
        | _, _ => some 0
      | _, _ => none
    | _, _ => none

/-- The reference `MovingAverageStrategy(short_window, long_window)`
with `min_required_candles = long_window`. -/
def MovingAverageStrategy (short_window long_window : ℕ) : Strategy :=
  { name := "Moving Average Crossover"
    min_required_candles := long_window
    prepare_data := MovingAverageStrategy.prepare_data short_window long_window
    generate_signal := MovingAverageStrategy.generate_signal long_window }

/-- A completed trade record appended by `Backtester.run`
(backtester.py lines 446-453 and 472-479); timestamps are candle
indices; the constant `symbol`/`side` fields are elided. -/
structure Trade where
  entry_time : ℕ
  entry_price : ℚ
  size : ℚ
  commission : ℚ
  exit_time : ℕ
  exit_price : ℚ
  profit : ℚ
  profit_pct : ℚ
deriving DecidableEq, Repr

/-- The `current_trade` record between entry and exit. -/
structure OpenTrade where
  entry_time : ℕ
  entry_price : ℚ
  size : ℚ
  commission : ℚ
deriving DecidableEq, Repr

/-- The `state` dict of `Backtester.run` (backtester.py lines 405-411). -/
structure RunState where
  equity : ℚ
  position : ℚ
  entry_price : ℚ
  trades : List Trade
  current_trade : Option OpenTrade
deriving DecidableEq, Repr

/-- The slice of `BacktestResult` that the verified claims speak about. -/
structure BacktestResult where
  initial_capital : ℚ
  trades : List Trade
  equity_curve : List ℚ
deriving DecidableEq, Repr

/-- `analysis_data = data.iloc[:i+1].copy()` (backtester.py line 427):
the frame handed to `generate_signal` is a slice of the raw input
series, not of the prepared series. -/
def Backtester.analysisData (data : DataFrame) (i : ℕ) : DataFrame :=
  data.take (i + 1)

/-- Signal execution for one candle (backtester.py lines 433-482).
On a buy while flat the source computes `cost` but debits only the
commission from `state['equity']`; this embedding reproduces that. -/
def Backtester.executeSignal (commission_pct : ℚ) (timestamp : ℕ) (close : ℚ)
    (signal : Int) (st : RunState) : RunState :=
  if signal = 1 ∧ st.position ≤ 0 then
    let price := close
    let size := st.equity / price
    let cost := size * price
    let commission := cost * (commission_pct / 100)
    { st with
      position := size
      entry_price := price
      equity := st.equity - commission
      current_trade := some ⟨timestamp, price, size, commission⟩ }
  else if signal = -1 ∧ 0 < st.position then
    let price := close
    let size := st.position
    let value := size * price
    let commission := value * (commission_pct / 100)
    let profit := value - size * st.entry_price - commission
    let profit_pct := profit / (size * st.entry_price)
    { st with
      equity := st.equity + value - commission
      position := 0
      trades :=
        match st.current_trade with
        | some ot => st.trades ++
            [⟨ot.entry_time, ot.entry_price, ot.size, ot.commission,
              timestamp, price, profit, profit_pct⟩]
        | none => st.trades
      current_trade := none }
  else st

/-- The equity-curve point written after signal execution
(backtester.py lines 484-490): cash plus mark-to-market value of any
open position. -/
def Backtester.equityPoint (st : RunState) (close : ℚ) : ℚ :=
  if 0 < st.position then st.equity + st.position * close else st.equity

/-- One iteration of the candle loop (backtester.py lines 421-490).
Warm-up candles (`i < min_required_candles`) are skipped by `continue`,
leaving the pre-initialized equity-curve entry (`initial_capital`) in
place. -/
def Backtester.runStep (strategy : Strategy) (data : DataFrame)
    (initial_capital commission_pct : ℚ)
    (acc : RunState × List ℚ) (i : ℕ) : Option (RunState × List ℚ) :=
  if i < strategy.min_required_candles then
    some (acc.1, acc.2 ++ [initial_capital])
  else
    match strategy.generate_signal (Backtester.analysisData data i) with
    | none => none
    | some signal =>
      let close := data.closes.getD i 0
      let st := Backtester.executeSignal commission_pct i close signal acc.1
      some (st, acc.2 ++ [Backtester.equityPoint st close])

/-- The candle loop over a list of candle indices; a `none` from
`runStep` (an exception inside the loop body) aborts the whole run. -/
def Backtester.runCandles (strategy : Strategy) (data : DataFrame)
    (initial_capital commission_pct : ℚ) :
    List ℕ → RunState × List ℚ → Option (RunState × List ℚ)
  | [], acc => some acc
  | i :: rest, acc =>
    match Backtester.runStep strategy data initial_capital commission_pct acc i with
    | none => none
    | some acc' =>
      Backtester.runCandles strategy data initial_capital commission_pct rest acc'

/-- The candle loop: run `runStep` over all candle indices, starting
from the initial state and the (initially empty) equity curve. -/
def Backtester.runLoop (strategy : Strategy) (data : DataFrame)
    (initial_capital commission_pct : ℚ) : Option (RunState × List ℚ) :=
  Backtester.runCandles strategy data initial_capital commission_pct
    (List.range data.length) (⟨initial_capital, 0, 0, [], none⟩, [])

/-- Force-close of a still-open position at the last close price
(backtester.py lines 493-516); note the source leaves
`state['position']` and `state['current_trade']` untouched apart from
appending the completed trade. -/
def Backtester.closeFinal (commission_pct : ℚ) (lastIndex : ℕ)
    (last_price : ℚ) (st : RunState) : RunState :=
  if 0 < st.position then
    let size := st.position
    let value := size * last_price
    let commission := value * (commission_pct / 100)
    let profit := value - size * st.entry_price - commission
    let profit_pct := profit / (size * st.entry_price)
    { st with
      equity := st.equity + value - commission
      trades :=
        match st.current_trade with
        | some ot => st.trades ++
            [⟨ot.entry_time, ot.entry_price, ot.size, ot.commission,
              lastIndex, last_price, profit, profit_pct⟩]
        | none => st.trades }
  else st

/-- `Backtester.run` (backtester.py lines 353-536) on an
already-fetched series: empty data fails; `prepare_data` is invoked
once on the whole series and its return value is discarded, exactly as
in the source (line 418); then the candle loop and the final force
close.  Any exception inside the loop yields `none`. -/
def Backtester.run (strategy : Strategy) (data : DataFrame)
    (initial_capital commission_pct : ℚ) : Option BacktestResult :=
  if data.length = 0 then none
  else
    let _prepared := strategy.prepare_data data
    match Backtester.runLoop strategy data initial_capital commission_pct with
    | none => none
    | some (st, curve) =>
      let final := Backtester.closeFinal commission_pct (data.length - 1)
        (data.closes.getLastD 0) st
      some ⟨initial_capital, final.trades, curve⟩

/-- `profitable_trades = [t for t in self.trades if t['profit'] > 0]`
(backtester.py line 104): the trades counted as wins by the win rate. -/
def profitable_trades (trades : List Trade) : List Trade :=
  trades.filter (fun t => 0 < t.profit)

/-- `metrics.get(metric, 0)` (backtester.py line 597): look a metric up
by name, defaulting to `0`. -/
def dictGet (d : List (String × ℚ)) (k : String) : ℚ :=
  match d.find? (fun p => p.1 = k) with
  | some p => p.2
  | none => 0

/-- `itertools.product(*param_values)` in its enumeration order: the
first grid entry varies slowest. -/
def itertoolsProduct : List (List ℚ) → List (List ℚ)
  | [] => [[]]
  | vs :: rest => vs.flatMap (fun v => (itertoolsProduct rest).map (fun t => v :: t))

/-- `setattr(self.strategy, name, value)`: the strategy's mutable
parameter attributes are modelled as a finite map from attribute name
to value. -/
def setattr (s : String → Option ℚ) (name : String) (value : ℚ) :
    String → Option ℚ :=
  fun k => if k = name then some value else s k

/-- Apply a parameter dict to the strategy attribute map, one `setattr`
per entry (backtester.py lines 581-582 and 727-728). -/
def setParams : (String → Option ℚ) → List (String × ℚ) → String → Option ℚ
  | s, [] => s
  | s, p :: ps => setParams (setattr s p.1 p.2) ps

/-- The best-candidate update of the grid-search loop (backtester.py
lines 599-603): replace the running best exactly when the new metric
value is strictly greater; ties and smaller values keep the incumbent. -/
def updateBest (best : Option (ℚ × List (String × ℚ)))
    (x : List (String × ℚ) × ℚ) : Option (ℚ × List (String × ℚ)) :=
  match best with
  | none => some (x.2, x.1)
  | some b => if b.1 < x.2 then some (x.2, x.1) else some b

/-- The optimization-results record of `Backtester.optimize`
(backtester.py lines 613-626), together with the post-call state of the
mutated strategy attribute map (`final_strategy`), which the source
keeps implicitly in `self.strategy`. -/
structure OptimizationResults where
  num_combinations : ℕ
  best_params : Option (List (String × ℚ))
  best_metric_value : Option ℚ
  all_results : List (List (String × ℚ) × List (String × ℚ))
  final_strategy : String → Option ℚ

/-- The grid-search loop of `Backtester.optimize` (backtester.py lines
578-611): for each combination, overwrite the strategy attributes, run
a backtest (`runWith`; `none` is a failed run, which is skipped), and
keep the strictly best metric value seen so far. -/
def Backtester.optimizeLoop (metric : String)
    (runWith : (String → Option ℚ) → Option (List (String × ℚ)))
    (param_names : List String) :
    List (List ℚ) → (String → Option ℚ) → Option (ℚ × List (String × ℚ)) →
    List (List (String × ℚ) × List (String × ℚ)) →
    (String → Option ℚ) × Option (ℚ × List (String × ℚ)) ×
      List (List (String × ℚ) × List (String × ℚ))
  | [], strategy, best, results => (strategy, best, results)
  | params :: rest, strategy, best, results =>
    let param_dict := param_names.zip params
    let strategy' := setParams strategy param_dict
    match runWith strategy' with
    | none =>
      Backtester.optimizeLoop metric runWith param_names rest strategy' best results
    | some metrics =>
      let metric_value := dictGet metrics metric
      Backtester.optimizeLoop metric runWith param_names rest strategy'
        (updateBest best (param_dict, metric_value))
        (results ++ [(param_dict, metrics)])

/-- `Backtester.optimize` (backtester.py lines 538-630).  `runWith`
abstracts `self.run(...)` as a function of the strategy's current
parameter attributes.  The initial sentinel
`best_metric_value = float('-inf')`, which a comparison with any finite
metric value strictly beats, is modelled by `none`. -/
def Backtester.optimize (strategy : String → Option ℚ)
    (param_grid : List (String × List ℚ)) (metric : String)
    (runWith : (String → Option ℚ) → Option (List (String × ℚ))) :
    OptimizationResults :=
  let param_names := param_grid.map Prod.fst
  let param_values := param_grid.map Prod.snd
  let param_combinations := itertoolsProduct param_values
  let out := Backtester.optimizeLoop metric runWith param_names
    param_combinations strategy none []
  { num_combinations := param_combinations.length
    best_params := out.2.1.map Prod.snd
    best_metric_value := out.2.1.map Prod.fst
    all_results := out.2.2
    final_strategy := out.1 }

/-- A walk-forward window (backtester.py lines 690-695); dates are day
offsets from a common origin. -/
structure Window where
  train_start : ℕ
  train_end : ℕ
  test_start : ℕ
  test_end : ℕ
deriving DecidableEq, Repr

/-- The window-generation loop of `Backtester.walk_forward_test`
(backtester.py lines 680-697).  `fuel` bounds the recursion; it is
sufficient whenever `0 < step_size` (for `step_size = 0` the source
itself does not terminate). -/
def generateWindowsAux (window_size step_size endDate : ℕ) :
    ℕ → ℕ → List Window
  | 0, _ => []
  | fuel + 1, current_start =>
    if current_start + window_size < endDate then
      { train_start := current_start
        train_end := current_start + window_size
        test_start := current_start + window_size
        test_end := min (current_start + window_size + step_size) endDate } ::
        generateWindowsAux window_size step_size endDate fuel
          (current_start + step_size)
    else []

/-- Walk-forward window generation from `startDate` to `endDate`. -/
def generateWindows (window_size step_size startDate endDate : ℕ) :
    List Window :=
  generateWindowsAux window_size step_size endDate (endDate + 1) startDate

/-- `equity_series.cummax()` from a running maximum `m`. -/
def cummaxAux (m : ℚ) : List ℚ → List ℚ
  | [] => []
  | x :: xs => max m x :: cummaxAux (max m x) xs

/-- `equity_series.cummax()` : the running maximum. -/
def cummax : List ℚ → List ℚ
  | [] => []
  | x :: xs => x :: cummaxAux x xs

/-- `series.min()` of a nonempty series (only ever applied to one). -/
def seriesMin : List ℚ → ℚ
  | [] => 0
  | x :: xs => xs.foldl min x

/-- `calculate_drawdown` (trading_utils.py lines 14-34): absolute value
of the most negative relative excursion below the running maximum.  In
`ℚ`, division by a zero running maximum gives `0`, which coincides with
the source's NaN-to-`0.0` fallback on the inputs verified here (an
all-zero series, where every float entry is `0.0/0.0 = NaN`). -/
def calculate_drawdown (equity_series : List ℚ) : ℚ :=
  if equity_series.isEmpty then 0
  else
    let running_max := cummax equity_series
    let drawdown := List.zipWith (fun e m => (e - m) / m) equity_series running_max
    |seriesMin drawdown|

/-- `equity.pct_change().dropna()` : entry `i` is
`(e(i+1) - e(i)) / e(i)`, one fewer entry than the input.  In `ℚ` a
zero previous value gives a `0` entry where pandas would give a `NaN`
dropped by `dropna`; on the constant series verified here both paths
make `calculate_sharpe_ratio` return `0`. -/
def pct_change (l : List ℚ) : List ℚ :=
  List.zipWith (fun prev cur => (cur - prev) / prev) l l.tail

/-- `calculate_sharpe_ratio` (trading_utils.py lines 37-61): annualized
mean excess return over sample standard deviation.  The source's final
`NaN`-to-`0.0` guard corresponds to the `0/0 = 0` convention of `ℝ`
division; a zero standard deviation with a nonzero mean (where floats
give `±inf`, not `NaN`) is outside the statements verified here. -/
noncomputable def calculate_sharpe_ratio (returns : List ℚ)
    (risk_free_rate : ℚ) (periods_per_year : ℕ) : ℝ :=
  if returns.length < 2 then 0
  else
    let rf_per_period : ℝ :=
      Real.rpow (1 + (risk_free_rate : ℝ)) (1 / (periods_per_year : ℝ)) - 1
    let excess_returns : List ℝ :=
      returns.map (fun r : ℚ => (r : ℝ) - rf_per_period)
    let m := excess_returns.sum / (excess_returns.length : ℝ)
    let sd := Real.sqrt
      ((excess_returns.map (fun x => (x - m) ^ 2)).sum /
        ((excess_returns.length : ℝ) - 1))
    m / sd * Real.sqrt (periods_per_year : ℝ)

/-- `calculate_annualized_return` (trading_utils.py lines 239-275): the
equity series is a list of (day offset, value) pairs. -/
noncomputable def calculate_annualized_return (equity_series : List (ℕ × ℚ))
    (days_in_year : ℕ) : ℝ :=
  if equity_series.length < 2 then 0
  else
    let start_value := equity_series.headI.2
    let end_value := (equity_series.getLastD (0, 0)).2
    let total_return : ℚ := end_value / start_value - 1
    let duration_days : ℕ :=
      (equity_series.getLastD (0, 0)).1 - equity_series.headI.1
    if duration_days = 0 then (total_return : ℝ)
    else
      let years : ℝ := (duration_days : ℝ) / (days_in_year : ℝ)
      Real.rpow (1 + (total_return : ℝ)) (1 / years) - 1

/-- The annualized-return computation inside
`BacktestResult._calculate_metrics` (backtester.py lines 95-100), as a
function of the percentage total return and the elapsed days between
the first and last equity-curve timestamps. -/
noncomputable def BacktestResult.annualized_return (total_return_pct : ℚ)
    (days : ℕ) : ℝ :=
  if 0 < days then
    Real.rpow (1 + (total_return_pct : ℝ) / 100) ((365 : ℝ) / (days : ℝ)) - 1
  else 0

/-- Concrete two-candle frame with constant close 10 and no derived
columns. -/
def dfFlat2 : DataFrame := ⟨[10, 10], []⟩

/-- Concrete four-candle flat frame. -/
def dfFlat4 : DataFrame := ⟨[10, 10, 10, 10], []⟩

/-- Concrete five-candle frame of rising closes with no derived
columns. -/
def dfInc5 : DataFrame := ⟨[100, 101, 102, 103, 104], []⟩

/-- Concrete strategy that always holds. -/
def holdStrategy (minReq : ℕ) : Strategy :=
  { name := "hold"
    min_required_candles := minReq
    prepare_data := fun d => d
    generate_signal := fun _ => some 0 }

/-- Concrete scenario strategy: buy on the first candle it sees, sell
on the second, hold afterwards. -/
def buySellStrategy : Strategy :=
  { name := "scenario buy then sell"
    min_required_candles := 0
    prepare_data := fun d => d
    generate_signal := fun d =>
      some (if d.length = 1 then 1 else if d.length = 2 then -1 else 0) }

/-- The (parameter dict, metrics dict) pairs of the successful runs, in
enumeration order over the full Cartesian product.  Each combination is
applied to the original strategy state; since every combination
overwrites every grid key, this coincides with the source's in-place
mutation of `self.strategy`. -/
def gridResults (strategy : String → Option ℚ)
    (param_grid : List (String × List ℚ))
    (runWith : (String → Option ℚ) → Option (List (String × ℚ))) :
    List (List (String × ℚ) × List (String × ℚ)) :=
  (itertoolsProduct (param_grid.map Prod.snd)).filterMap (fun params =>
    (runWith (setParams strategy ((param_grid.map Prod.fst).zip params))).map
      (fun metrics => ((param_grid.map Prod.fst).zip params, metrics)))

/-- The (parameter dict, metric value) pairs of the successful runs, in
enumeration order over the full Cartesian product. -/
def gridSuccesses (strategy : String → Option ℚ)
    (param_grid : List (String × List ℚ)) (metric : String)
    (runWith : (String → Option ℚ) → Option (List (String × ℚ))) :
    List (List (String × ℚ) × ℚ) :=
  (itertoolsProduct (param_grid.map Prod.snd)).filterMap (fun params =>
    (runWith (setParams strategy ((param_grid.map Prod.fst).zip params))).map
      (fun metrics =>
        ((param_grid.map Prod.fst).zip params, dictGet metrics metric)))

/-- Concrete one-parameter grid with two candidate values. -/
def gridW : List (String × List ℚ) := [("w", [1, 2])]

/-- Concrete initial strategy attribute map with no attributes set. -/
def strategyW : String → Option ℚ := fun _ => none

/-- Concrete run outcome: metric 10 when the strategy attribute `w` is
1, metric 0 otherwise; every run succeeds. -/
def runWithW : (String → Option ℚ) → Option (List (String × ℚ)) :=
  fun s => if s "w" = some 1 then some [("m", 10)] else some [("m", 0)]

/-- Trade profits as the source computes them: net of the exit-leg
commission only (`profit = value - size * entry_price - commission`
with `commission = value * (commission_pct / 100)` and
`value = size * exit_price`, backtester.py lines 461-464 and 497-500).
The entry-leg commission is stored on the trade record but never
subtracted from `profit`. -/
def profitNetExitOnly (commission_pct : ℚ) (t : Trade) : Prop :=
  t.profit = t.size * t.exit_price - t.size * t.entry_price -
    t.size * t.exit_price * (commission_pct / 100)

/-- The open-trade record mirrors the state's entry bookkeeping: set
together on a buy, cleared together on a sell. -/
def entrySync (st : RunState) : Prop :=
  ∀ ot, st.current_trade = some ot →
    ot.entry_price = st.entry_price ∧ ot.size = st.position

lemma executeSignal_invariant (cp : ℚ) (ts : ℕ) (close : ℚ) (sig : Int)
    (st : RunState)
    (h1 : ∀ t ∈ st.trades, profitNetExitOnly cp t) (h2 : entrySync st) :
    (∀ t ∈ (Backtester.executeSignal cp ts close sig st).trades,
      profitNetExitOnly cp t) ∧
    entrySync (Backtester.executeSignal cp ts close sig st) := by
  unfold Backtester.executeSignal
  split_ifs with hb hs
  · refine ⟨h1, ?_⟩
    intro ot hot
    simp only [Option.some.injEq] at hot
    subst hot
    exact ⟨rfl, rfl⟩
  · constructor
    · intro t ht
      rcases hcur : st.current_trade with _ | ot
      · rw [hcur] at ht
        exact h1 t ht
      · rw [hcur] at ht
        rcases List.mem_append.1 ht with h | h
        · exact h1 t h
        · rcases List.mem_singleton.1 h with rfl
          obtain ⟨hp, hsz⟩ := h2 ot hcur
          simp only [profitNetExitOnly, hp, hsz]
    · intro ot hot
      simp at hot
  · exact ⟨h1, h2⟩

lemma closeFinal_invariant (cp : ℚ) (idx : ℕ) (lp : ℚ) (st : RunState)
    (h1 : ∀ t ∈ st.trades, profitNetExitOnly cp t) (h2 : entrySync st) :
    ∀ t ∈ (Backtester.closeFinal cp idx lp st).trades, profitNetExitOnly cp t := by
  unfold Backtester.closeFinal
  split_ifs with hpos
  · intro t ht
    rcases hcur : st.current_trade with _ | ot
    · rw [hcur] at ht
      exact h1 t ht
    · rw [hcur] at ht
      rcases List.mem_append.1 ht with h | h
      · exact h1 t h
      · rcases List.mem_singleton.1 h with rfl
        obtain ⟨hp, hsz⟩ := h2 ot hcur
        simp only [profitNetExitOnly, hp, hsz]
  · exact h1

lemma runCandles_invariant (strategy : Strategy) (data : DataFrame)
    (cap cp : ℚ) :
    ∀ (is : List ℕ) (acc : RunState × List ℚ) (out : RunState × List ℚ),
      Backtester.runCandles strategy data cap cp is acc = some out →
      (∀ t ∈ acc.1.trades, profitNetExitOnly cp t) → entrySync acc.1 →
      (∀ t ∈ out.1.trades, profitNetExitOnly cp t) ∧ entrySync out.1 ∧
        out.2.length = acc.2.length + is.length := by
  intro is
  induction is with
  | nil =>
    intro acc out hrun h1 h2
    simp only [Backtester.runCandles, Option.some.injEq] at hrun
    subst hrun
    exact ⟨h1, h2, by simp⟩
  | cons i rest ih =>
    intro acc out hrun h1 h2
    simp only [Backtester.runCandles] at hrun
    rcases hstep : Backtester.runStep strategy data cap cp acc i with _ | acc'
    · rw [hstep] at hrun
      exact absurd hrun (by simp)
    · rw [hstep] at hrun
      unfold Backtester.runStep at hstep
      split_ifs at hstep with hskip
      · simp only [Option.some.injEq] at hstep
        subst hstep
        have := ih _ _ hrun h1 h2
        refine ⟨this.1, this.2.1, ?_⟩
        rw [this.2.2]
        simp
        omega
      · rcases hsig : strategy.generate_signal (Backtester.analysisData data i)
          with _ | signal
        · rw [hsig] at hstep
          exact absurd hstep (by simp)
        · rw [hsig] at hstep
          simp only [Option.some.injEq] at hstep
          subst hstep
          have hex := executeSignal_invariant cp i (data.closes.getD i 0) signal
            acc.1 h1 h2
          have := ih _ _ hrun hex.1 hex.2
          refine ⟨this.1, this.2.1, ?_⟩
          rw [this.2.2]
          simp
          omega

/-- C2 (counterexample): on a single round trip with commission
percentage 1.0, an entry notional of 1000 and an exit notional of 1000
at zero price change, the recorded trade profit is −10 — commission on
the exit leg only — not the −20 the claim requires. -/
theorem C2_profit_both_legs_counterexample :
    (Backtester.run buySellStrategy dfFlat2 1000 1).map
        (fun r => r.trades.map Trade.profit) = some [-10] ∧
      (Backtester.run buySellStrategy dfFlat2 1000 1).map
        (fun r => r.trades.map Trade.profit) ≠ some [-20] := by
  constructor <;>
    norm_num [Backtester.run, Backtester.runLoop, Backtester.runCandles,
      Backtester.runStep, Backtester.executeSignal, Backtester.equityPoint,
      Backtester.closeFinal, Backtester.analysisData, DataFrame.take,
      DataFrame.length, dfFlat2, buySellStrategy, List.range_succ]

/-- C2 (amended): every closed trade of every completed run — whether
closed on an opposing signal or force-closed at series end — has
`profit = exit notional − entry notional − exit commission`, i.e. net
of the exit-leg commission only; and in the 1000-notional round trip
with commission_pct = 1.0 the resulting −10 trade counts as a loss for
the win rate (zero profitable trades). -/
theorem C2_profit_net_exit_commission :
    (∀ (strategy : Strategy) (data : DataFrame) (cap cp : ℚ)
      (r : BacktestResult), Backtester.run strategy data cap cp = some r →
      ∀ t ∈ r.trades, profitNetExitOnly cp t) ∧
    (Backtester.run buySellStrategy dfFlat2 1000 1).map
      (fun r => (profitable_trades r.trades).length) = some 0 := by
  constructor
  · intro strategy data cap cp r hrun t ht
    unfold Backtester.run at hrun
    split_ifs at hrun with hempty
    rcases hloop : Backtester.runLoop strategy data cap cp with _ | out
    · rw [hloop] at hrun
      exact absurd hrun (by simp)
    · rw [hloop] at hrun
      simp only [Option.some.injEq] at hrun
      subst hrun
      have hinv := runCandles_invariant strategy data cap cp _ _ _ hloop
        (by simp) (by intro ot hot; simp at hot)
      exact closeFinal_invariant cp (data.length - 1) (data.closes.getLastD 0)
        out.1 hinv.1 hinv.2.1 t ht
  · norm_num [Backtester.run, Backtester.runLoop, Backtester.runCandles,
      Backtester.runStep, Backtester.executeSignal, Backtester.equityPoint,
      Backtester.closeFinal, Backtester.analysisData, DataFrame.take,
      DataFrame.length, dfFlat2, buySellStrategy, List.range_succ,
      profitable_trades]

/-- Witness for `C2_profit_net_exit_commission` at the concrete
round-trip run. -/
theorem C2_profit_net_exit_commission_witness :
    profitNetExitOnly 1 ⟨0, 10, 100, 10, 1, 10, -10, -1/100⟩ :=
  C2_profit_net_exit_commission.1 buySellStrategy dfFlat2 1000 1
    ⟨1000, [⟨0, 10, 100, 10, 1, 10, -10, -1/100⟩], [1990, 1980]⟩
    (by norm_num [Backtester.run, Backtester.runLoop, Backtester.runCandles,
      Backtester.runStep, Backtester.executeSignal, Backtester.equityPoint,
      Backtester.closeFinal, Backtester.analysisData, DataFrame.take,
      DataFrame.length, dfFlat2, buySellStrategy, List.range_succ])
    _ (List.mem_singleton.2 rfl)

/-- C1: evaluation of the engine at a failing input.  Buy at candle 0
and sell at candle 1, both at close 10, with initial capital 1000 and
commission 0.  The buy branch debits only the commission (here 0) and
never the purchase notional, so the equity-curve point right after the
buy is 2000 — cash 1000 plus position value 1000 — not the pre-entry
equity 1000 the claim requires, and after selling at the unchanged
close the equity is 2000 rather than the pre-buy 1000, even though the
same run's own trade log records a round-trip profit of 0. -/
theorem C1_entry_never_debits_notional :
    Backtester.run buySellStrategy dfFlat2 1000 0 =
        some ⟨1000, [⟨0, 10, 100, 0, 1, 10, 0, 0⟩], [2000, 2000]⟩ ∧
      (Backtester.run buySellStrategy dfFlat2 1000 0).map
        BacktestResult.equity_curve ≠ some [1000, 1000] := by
  constructor <;>
    norm_num [Backtester.run, Backtester.runLoop, Backtester.runCandles,
      Backtester.runStep, Backtester.executeSignal, Backtester.equityPoint,
      Backtester.closeFinal, Backtester.analysisData, DataFrame.take,
      DataFrame.length, dfFlat2, buySellStrategy, List.range_succ]

/-- C4 (counterexample): a four-candle run with two warm-up candles
produces an equity curve of four points — the curve is pre-initialized
with one point per candle and warm-up candles keep theirs — not the
`4 − 2 = 2` points the claim requires. -/
theorem C4_equity_curve_includes_warmup :
    (Backtester.run (holdStrategy 2) dfFlat4 1000 0).map
        (fun r => r.equity_curve.length) = some 4 ∧
      dfFlat4.length - (holdStrategy 2).min_required_candles = 2 ∧ (4 : ℕ) ≠ 2 := by
  refine ⟨?_, by norm_num [dfFlat4, DataFrame.length, holdStrategy], by norm_num⟩
  norm_num [Backtester.run, Backtester.runLoop, Backtester.runCandles,
    Backtester.runStep, Backtester.executeSignal, Backtester.equityPoint,
    Backtester.closeFinal, Backtester.analysisData, DataFrame.take,
    DataFrame.length, dfFlat4, holdStrategy, List.range_succ]

/-- C4 (amended): the equity curve of every completed run has exactly
one point per candle of the (filtered) series — warm-up candles
included, each holding the initial capital — so its length equals the
candle count, not the candle count minus the warm-up count; concretely,
the four-candle run with two warm-up candles yields the constant curve
`[1000, 1000, 1000, 1000]`. -/
theorem C4_equity_curve_one_point_per_candle :
    (∀ (strategy : Strategy) (data : DataFrame) (cap cp : ℚ)
      (r : BacktestResult), Backtester.run strategy data cap cp = some r →
      r.equity_curve.length = data.length) ∧
    (Backtester.run (holdStrategy 2) dfFlat4 1000 0).map
      BacktestResult.equity_curve = some [1000, 1000, 1000, 1000] := by
  constructor
  · intro strategy data cap cp r hrun
    unfold Backtester.run at hrun
    split_ifs at hrun with hempty
    rcases hloop : Backtester.runLoop strategy data cap cp with _ | out
    · rw [hloop] at hrun
      exact absurd hrun (by simp)
    · rw [hloop] at hrun
      simp only [Option.some.injEq] at hrun
      subst hrun
      have hinv := runCandles_invariant strategy data cap cp _ _ _ hloop
        (by simp) (by intro ot hot; simp at hot)
      simpa using hinv.2.2
  · norm_num [Backtester.run, Backtester.runLoop, Backtester.runCandles,
      Backtester.runStep, Backtester.executeSignal, Backtester.equityPoint,
      Backtester.closeFinal, Backtester.analysisData, DataFrame.take,
      DataFrame.length, dfFlat4, holdStrategy, List.range_succ]

/-- Witness for `C4_equity_curve_one_point_per_candle` at the concrete
four-candle run. -/
theorem C4_equity_curve_one_point_per_candle_witness :
    (⟨1000, [], [1000, 1000, 1000, 1000]⟩ : BacktestResult).equity_curve.length =
      dfFlat4.length :=
  C4_equity_curve_one_point_per_candle.1 (holdStrategy 2) dfFlat4 1000 0
    ⟨1000, [], [1000, 1000, 1000, 1000]⟩
    (by norm_num [Backtester.run, Backtester.runLoop, Backtester.runCandles,
      Backtester.runStep, Backtester.executeSignal, Backtester.equityPoint,
      Backtester.closeFinal, Backtester.analysisData, DataFrame.take,
      DataFrame.length, dfFlat4, holdStrategy, List.range_succ])

/-- C7: walk-forward window generation with `window_size = 30`,
`step_size = 10` over a 100-day range produces exactly 7 windows, each
with a 30-day training span immediately followed by a 10-day test span,
and every training span ends before the overall end date. -/
theorem C7_walk_forward_windows :
    (generateWindows 30 10 0 100).length = 7 ∧
      ∀ w ∈ generateWindows 30 10 0 100,
        w.train_end - w.train_start = 30 ∧ w.test_start = w.train_end ∧
          w.test_end - w.test_start = 10 ∧ w.train_end < 100 := by
  decide

lemma setParams_not_mem :
    ∀ (params : List (String × ℚ)) (s : String → Option ℚ) (k : String),
      k ∉ params.map Prod.fst → setParams s params k = s k := by
  intro params
  induction params with
  | nil => intro s k _; rfl
  | cons p ps ih =>
    intro s k hk
    simp only [List.map_cons, List.mem_cons, not_or] at hk
    show setParams (setattr s p.1 p.2) ps k = s k
    rw [ih _ k hk.2]
    simp [setattr, hk.1]

lemma setParams_indep :
    ∀ (params : List (String × ℚ)) (k : String), k ∈ params.map Prod.fst →
      ∀ s s', setParams s params k = setParams s' params k := by
  intro params
  induction params with
  | nil => intro k hk; simp at hk
  | cons p ps ih =>
    intro k hk s s'
    by_cases hmem : k ∈ ps.map Prod.fst
    · exact ih k hmem _ _
    · have hkp : k = p.1 := by
        simp only [List.map_cons, List.mem_cons] at hk
        tauto

      show setParams (setattr s p.1 p.2) ps k = setParams (setattr s' p.1 p.2) ps k
      rw [setParams_not_mem ps _ k hmem, setParams_not_mem ps _ k hmem]
      simp [setattr, hkp]

lemma setParams_agree (params : List (String × ℚ)) (s s' : String → Option ℚ)
    (hagree : ∀ k, k ∉ params.map Prod.fst → s k = s' k) :
    setParams s params = setParams s' params := by
  funext k
  by_cases hk : k ∈ params.map Prod.fst
  · exact setParams_indep params k hk s s'
  · rw [setParams_not_mem params s k hk, setParams_not_mem params s' k hk]
    exact hagree k hk

lemma itertoolsProduct_mem_length :
    ∀ (vss : List (List ℚ)) (c : List ℚ), c ∈ itertoolsProduct vss →
      c.length = vss.length := by
  intro vss
  induction vss with
  | nil =>
    intro c hc
    simp only [itertoolsProduct, List.mem_singleton] at hc
    subst hc
    rfl
  | cons vs rest ih =>
    intro c hc
    simp only [itertoolsProduct, List.mem_flatMap] at hc
    obtain ⟨v, _, hc'⟩ := hc
    rw [List.mem_map] at hc'
    obtain ⟨t, ht, rfl⟩ := hc'
    simp [ih t ht]

lemma optimizeLoop_all_fail (metric : String)
    (runWith : (String → Option ℚ) → Option (List (String × ℚ)))
    (names : List String) (hfail : ∀ s, runWith s = none) :
    ∀ (combos : List (List ℚ)) (s : String → Option ℚ)
      (best : Option (ℚ × List (String × ℚ)))
      (results : List (List (String × ℚ) × List (String × ℚ))),
      (Backtester.optimizeLoop metric runWith names combos s best results).2.1 = best ∧
        (Backtester.optimizeLoop metric runWith names combos s best results).2.2 =
          results := by
  intro combos
  induction combos with
  | nil => intro s best results; exact ⟨rfl, rfl⟩
  | cons c cs ih =>
    intro s best results
    simp only [Backtester.optimizeLoop, hfail]
    exact ih _ best results

lemma optimizeLoop_spec (metric : String)
    (runWith : (String → Option ℚ) → Option (List (String × ℚ)))
    (names : List String) (strategy0 : String → Option ℚ) :
    ∀ (combos : List (List ℚ)) (s : String → Option ℚ)
      (best : Option (ℚ × List (String × ℚ)))
      (results : List (List (String × ℚ) × List (String × ℚ))),
      (∀ k, k ∉ names → s k = strategy0 k) →
      (∀ c ∈ combos, names.length ≤ c.length) →
      (Backtester.optimizeLoop metric runWith names combos s best results).2.2 =
          results ++ combos.filterMap (fun params =>
            (runWith (setParams strategy0 (names.zip params))).map
              (fun metrics => (names.zip params, metrics))) ∧
        (Backtester.optimizeLoop metric runWith names combos s best results).2.1 =
          (combos.filterMap (fun params =>
            (runWith (setParams strategy0 (names.zip params))).map
              (fun metrics => (names.zip params, dictGet metrics metric)))).foldl
            updateBest best ∧
        (combos = [] →
          (Backtester.optimizeLoop metric runWith names combos s best results).1 = s) ∧
        ∀ lastc, combos.getLast? = some lastc →
          (Backtester.optimizeLoop metric runWith names combos s best results).1 =
            setParams strategy0 (names.zip lastc) := by
  intro combos
  induction combos with
  | nil =>
    intro s best results hagree _
    refine ⟨by simp [Backtester.optimizeLoop], rfl, fun _ => rfl, ?_⟩
    intro lastc hlast
    simp at hlast
  | cons c cs ih =>
    intro s best results hagree hlen
    have hclen : names.length ≤ c.length := hlen c (by simp)
    have hzip : (names.zip c).map Prod.fst = names := List.map_fst_zip names c hclen
    have hs' : setParams s (names.zip c) = setParams strategy0 (names.zip c) := by
      apply setParams_agree
      intro k hk
      rw [hzip] at hk
      exact hagree k hk
    have hagree' : ∀ k, k ∉ names → setParams s (names.zip c) k = strategy0 k := by
      intro k hk
      rw [setParams_not_mem (names.zip c) s k (by rwa [hzip])]
      exact hagree k hk
    have hlen' : ∀ c' ∈ cs, names.length ≤ c'.length := fun c' hc' =>
      hlen c' (by simp [hc'])
    rcases hrw : runWith (setParams strategy0 (names.zip c)) with _ | ms
    · have hloop : Backtester.optimizeLoop metric runWith names (c :: cs) s
          best results =
          Backtester.optimizeLoop metric runWith names cs
            (setParams s (names.zip c)) best results := by
        simp only [Backtester.optimizeLoop, hs', hrw]
      have hrec := ih (setParams s (names.zip c)) best results hagree' hlen'
      rw [hloop]
      refine ⟨?_, ?_, ?_, ?_⟩
      · rw [hrec.1]
        simp [List.filterMap_cons, hrw]
      · rw [hrec.2.1]
        simp [List.filterMap_cons, hrw]
      · intro h
        exact absurd h (by simp)
      · intro lastc hlast
        rcases cs with _ | ⟨c2, cs'⟩
        · simp only [List.getLast?_singleton, Option.some.injEq] at hlast
          subst hlast
          rw [hrec.2.2.1 rfl, hs']
        · exact hrec.2.2.2 lastc (by rwa [List.getLast?_cons_cons] at hlast)
    · have hloop : Backtester.optimizeLoop metric runWith names (c :: cs) s
          best results =
          Backtester.optimizeLoop metric runWith names cs
            (setParams s (names.zip c))
            (updateBest best (names.zip c, dictGet ms metric))
            (results ++ [(names.zip c, ms)]) := by
        simp only [Backtester.optimizeLoop, hs', hrw]
      have hrec := ih (setParams s (names.zip c))
        (updateBest best (names.zip c, dictGet ms metric))
        (results ++ [(names.zip c, ms)]) hagree' hlen'
      rw [hloop]
      refine ⟨?_, ?_, ?_, ?_⟩
      · rw [hrec.1]
        simp [List.filterMap_cons, hrw]
      · rw [hrec.2.1]
        simp [List.filterMap_cons, hrw]
      · intro h
        exact absurd h (by simp)
      · intro lastc hlast
        rcases cs with _ | ⟨c2, cs'⟩
        · simp only [List.getLast?_singleton, Option.some.injEq] at hlast
          subst hlast
          rw [hrec.2.2.1 rfl, hs']
        · exact hrec.2.2.2 lastc (by rwa [List.getLast?_cons_cons] at hlast)

lemma updateBest_some_exists (b0 : Option (ℚ × List (String × ℚ)))
    (x : List (String × ℚ) × ℚ) :
    ∃ b1, updateBest b0 x = some b1 ∧ x.2 ≤ b1.1 ∧
      ∀ b, b0 = some b → b.1 ≤ b1.1 := by
  cases b0 with
  | none => exact ⟨(x.2, x.1), rfl, le_refl _, by simp⟩
  | some b =>
    by_cases h : b.1 < x.2
    · refine ⟨(x.2, x.1), by simp [updateBest, h], le_refl _, ?_⟩
      intro b' hb'
      obtain rfl : b = b' := by injection hb'
      exact le_of_lt h
    · refine ⟨b, by simp [updateBest, h], le_of_not_lt h, ?_⟩
      intro b' hb'
      obtain rfl : b = b' := by injection hb'
      exact le_refl _

lemma foldl_updateBest_spec :
    ∀ (l : List (List (String × ℚ) × ℚ)) (b0 : Option (ℚ × List (String × ℚ)))
      (v : ℚ) (p : List (String × ℚ)),
      l.foldl updateBest b0 = some (v, p) →
      (b0 = some (v, p) ∧ ∀ x ∈ l, x.2 ≤ v) ∨
      (∃ pre post, l = pre ++ (p, v) :: post ∧ (∀ x ∈ pre, x.2 < v) ∧
        (∀ x ∈ post, x.2 ≤ v) ∧ ∀ b, b0 = some b → b.1 < v) := by
  intro l
  induction l with
  | nil =>
    intro b0 v p h
    simp only [List.foldl_nil] at h
    exact Or.inl ⟨h, by simp⟩
  | cons x xs ih =>
    intro b0 v p h
    simp only [List.foldl_cons] at h
    rcases ih (updateBest b0 x) v p h with ⟨hb1, hxs⟩ | ⟨pre, post, heq, hpre, hpost, hb0⟩
    · cases b0 with
      | none =>
        have hx : x.2 = v ∧ x.1 = p := by
          simp only [updateBest, Option.some.injEq, Prod.mk.injEq] at hb1
          exact hb1
        refine Or.inr ⟨[], xs, ?_, by simp, hxs, by simp⟩
        simp [← hx.1, ← hx.2]
      | some b =>
        by_cases hlt : b.1 < x.2
        · have hx : x.2 = v ∧ x.1 = p := by
            simp only [updateBest, hlt, if_true, Option.some.injEq,
              Prod.mk.injEq] at hb1
            exact hb1
          refine Or.inr ⟨[], xs, by simp [← hx.1, ← hx.2], by simp, hxs, ?_⟩
          intro b' hb'
          obtain rfl : b = b' := by injection hb'
          exact hx.1 ▸ hlt
        · have hb : b = (v, p) := by
            simp only [updateBest, hlt, if_false, Option.some.injEq] at hb1
            exact hb1
          refine Or.inl ⟨by rw [hb], ?_⟩
          intro x' hx'
          rcases List.mem_cons.1 hx' with rfl | hx'
          · have : x'.2 ≤ b.1 := le_of_not_lt hlt
            rw [hb] at this
            exact this
          · exact hxs x' hx'
    · obtain ⟨b1, hb1eq, hxle, hble⟩ := updateBest_some_exists b0 x
      have hb1v : b1.1 < v := hb0 b1 hb1eq
      refine Or.inr ⟨x :: pre, post, by rw [heq, List.cons_append], ?_, hpost, ?_⟩
      · intro x' hx'
        rcases List.mem_cons.1 hx' with rfl | hx'
        · exact lt_of_le_of_lt hxle hb1v
        · exact hpre x' hx'
      · intro b hb
        exact lt_of_le_of_lt (hble b hb) hb1v

lemma foldl_updateBest_ne_none :
    ∀ (l : List (List (String × ℚ) × ℚ)) (b : ℚ × List (String × ℚ)),
      l.foldl updateBest (some b) ≠ none := by
  intro l
  induction l with
  | nil => intro b h; exact absurd h (by simp)
  | cons x xs ih =>
    intro b h
    simp only [List.foldl_cons] at h
    obtain ⟨b1, hb1, _, _⟩ := updateBest_some_exists (some b) x
    rw [hb1] at h
    exact ih b1 h

lemma foldl_updateBest_none_iff (l : List (List (String × ℚ) × ℚ)) :
    l.foldl updateBest none = none ↔ l = [] := by
  cases l with
  | nil => simp
  | cons x xs =>
    simp only [List.foldl_cons]
    constructor
    · intro h
      rw [show updateBest none x = some (x.2, x.1) from rfl] at h
      exact absurd h (foldl_updateBest_ne_none xs _)
    · intro h
      exact absurd h (by simp)

/-- C5 (counterexample): on an empty parameter grid,
`itertools.product()` yields the single empty combination, so
`optimize` executes one full simulation with the strategy's current
parameters — whose success even becomes the best result — rather than
surfacing a failure immediately without running any simulation. -/
theorem C5_empty_grid_runs_a_simulation :
    (Backtester.optimize (fun _ => none) [] "total_return"
        (fun _ => some [("total_return", 5)])).num_combinations = 1 ∧
      (Backtester.optimize (fun _ => none) [] "total_return"
        (fun _ => some [("total_return", 5)])).best_params = some [] ∧
      (Backtester.optimize (fun _ => none) [] "total_return"
        (fun _ => some [("total_return", 5)])).best_metric_value = some 5 := by
  norm_num [Backtester.optimize, Backtester.optimizeLoop, itertoolsProduct,
    setParams, dictGet, updateBest, List.find?]

/-- C5 (amended): `optimize` on an empty grid dict enumerates exactly
one (empty) parameter combination — so one simulation is attempted, not
zero — and whenever every combination's run fails it reports
`best_params = None` with no stored per-combination results (the
`-inf` sentinel is never replaced), which is the only failure signal it
produces; downstream, `walk_forward_test` treats `best_params = None`
as the failure indicator. -/
theorem C5_optimize_failure_reporting :
    (∀ (strategy : String → Option ℚ) (metric : String)
      (runWith : (String → Option ℚ) → Option (List (String × ℚ))),
      (Backtester.optimize strategy [] metric runWith).num_combinations = 1) ∧
    ∀ (strategy : String → Option ℚ) (param_grid : List (String × List ℚ))
      (metric : String)
      (runWith : (String → Option ℚ) → Option (List (String × ℚ))),
      (∀ s, runWith s = none) →
      (Backtester.optimize strategy param_grid metric runWith).best_params =
          none ∧
        (Backtester.optimize strategy param_grid metric runWith).best_metric_value =
          none ∧
        (Backtester.optimize strategy param_grid metric runWith).all_results =
          [] := by
  constructor
  · intro strategy metric runWith
    simp [Backtester.optimize, itertoolsProduct]
  · intro strategy param_grid metric runWith hfail
    have h := optimizeLoop_all_fail metric runWith (param_grid.map Prod.fst)
      hfail (itertoolsProduct (param_grid.map Prod.snd)) strategy none []
    simp only [Backtester.optimize]
    rw [h.1, h.2]
    exact ⟨rfl, rfl, rfl⟩

/-- Witness for `C5_optimize_failure_reporting`: the empty grid gives
one combination, and an always-failing run gives `best_params = None`. -/
theorem C5_optimize_failure_reporting_witness :
    (Backtester.optimize (fun _ => none) [] "total_return"
        (fun _ => none)).num_combinations = 1 ∧
      (Backtester.optimize (fun _ => none) [("w", [1])] "m"
        (fun _ => none)).best_params = none :=
  ⟨C5_optimize_failure_reporting.1 _ "total_return" _,
    (C5_optimize_failure_reporting.2 _ [("w", [1])] "m" _ (fun _ => rfl)).1⟩

/-- C6: `optimize` enumerates the full Cartesian product of the grid in
declaration order; its stored per-combination results are exactly the
successful runs of that enumeration in order (failed runs are skipped
and never candidates); and the reported best is a successful
combination whose metric value is strictly above every earlier
successful value and at least every later one — i.e. the
first-encountered maximum, ties kept by enumeration order. -/
theorem C6_optimize_grid_search (strategy : String → Option ℚ)
    (param_grid : List (String × List ℚ)) (metric : String)
    (runWith : (String → Option ℚ) → Option (List (String × ℚ))) :
    (Backtester.optimize strategy param_grid metric runWith).num_combinations =
        (itertoolsProduct (param_grid.map Prod.snd)).length ∧
      (Backtester.optimize strategy param_grid metric runWith).all_results =
        gridResults strategy param_grid runWith ∧
      ((Backtester.optimize strategy param_grid metric runWith).best_params =
          none ↔ gridSuccesses strategy param_grid metric runWith = []) ∧
      ∀ v p,
        (Backtester.optimize strategy param_grid metric
          runWith).best_metric_value = some v →
        (Backtester.optimize strategy param_grid metric runWith).best_params =
          some p →
        ∃ pre post,
          gridSuccesses strategy param_grid metric runWith =
              pre ++ (p, v) :: post ∧
            (∀ x ∈ pre, x.2 < v) ∧ ∀ x ∈ post, x.2 ≤ v := by
  have hspec := optimizeLoop_spec metric runWith (param_grid.map Prod.fst)
    strategy (itertoolsProduct (param_grid.map Prod.snd)) strategy none []
    (fun _ _ => rfl)
    (fun c hc => by
      rw [itertoolsProduct_mem_length _ c hc]
      simp)
  refine ⟨rfl, ?_, ?_, ?_⟩
  · simp only [Backtester.optimize]
    rw [hspec.1]
    simp [gridResults]
  · simp only [Backtester.optimize]
    rw [hspec.2.1]
    rw [Option.map_eq_none']
    rw [foldl_updateBest_none_iff]
    simp [gridSuccesses]
  · intro v p hv hp
    simp only [Backtester.optimize] at hv hp
    rw [hspec.2.1] at hv hp
    rcases hL : (itertoolsProduct (param_grid.map Prod.snd)).filterMap
        (fun params =>
          (runWith (setParams strategy
            ((param_grid.map Prod.fst).zip params))).map
            (fun metrics =>
              ((param_grid.map Prod.fst).zip params,
                dictGet metrics metric))) |>.foldl updateBest none
        with _ | b
    · rw [hL] at hv
      exact absurd hv (by simp)
    · rw [hL] at hv hp
      simp only [Option.map_some', Option.some.injEq] at hv hp
      have hb : b = (v, p) := Prod.ext hv hp
      rw [hb] at hL
      rcases foldl_updateBest_spec _ none v p hL with ⟨h0, _⟩ |
          ⟨pre, post, heq, hpre, hpost, _⟩
      · exact absurd h0 (by simp)
      · exact ⟨pre, post, by simpa [gridSuccesses] using heq, hpre, hpost⟩

/-- Witness for `C6_optimize_grid_search` on the concrete grid
`{w: [1, 2]}` where `w = 1` scores 10 and `w = 2` scores 0: the best
is the first combination. -/
theorem C6_optimize_grid_search_witness :
    ∃ pre post,
      gridSuccesses strategyW gridW "m" runWithW =
          pre ++ ([("w", 1)], 10) :: post ∧
        (∀ x ∈ pre, x.2 < 10) ∧ ∀ x ∈ post, x.2 ≤ 10 :=
  (C6_optimize_grid_search strategyW gridW "m" runWithW).2.2.2 10 [("w", 1)]
    (by norm_num [Backtester.optimize, Backtester.optimizeLoop,
      itertoolsProduct, setParams, setattr, dictGet, updateBest, List.find?,
      strategyW, gridW, runWithW])
    (by norm_num [Backtester.optimize, Backtester.optimizeLoop,
      itertoolsProduct, setParams, setattr, dictGet, updateBest, List.find?,
      strategyW, gridW, runWithW])

/-- C10: after `optimize` returns, the shared strategy's parameter
attributes hold the values of the last enumerated combination —
`optimize` rewrites them before each trial and never re-applies
`best_params` afterwards — so on the concrete grid `{w: [1, 2]}` where
`w = 1` is best, the post-call strategy has `w = 2`, not `w = 1`, and
only an explicit re-application of `best_params` (as
`walk_forward_test` performs) restores `w = 1`. -/
theorem C10_optimize_leaves_last_combination :
    (∀ (strategy : String → Option ℚ) (param_grid : List (String × List ℚ))
      (metric : String)
      (runWith : (String → Option ℚ) → Option (List (String × ℚ)))
      (lastc : List ℚ),
      (itertoolsProduct (param_grid.map Prod.snd)).getLast? = some lastc →
      (Backtester.optimize strategy param_grid metric runWith).final_strategy =
        setParams strategy ((param_grid.map Prod.fst).zip lastc)) ∧
    (Backtester.optimize strategyW gridW "m" runWithW).best_params =
        some [("w", 1)] ∧
      (Backtester.optimize strategyW gridW "m" runWithW).final_strategy "w" =
        some 2 ∧
      setParams
        ((Backtester.optimize strategyW gridW "m" runWithW).final_strategy)
        [("w", 1)] "w" = some 1 := by
  refine ⟨?_, ?_, ?_, ?_⟩
  · intro strategy param_grid metric runWith lastc hlast
    have hspec := optimizeLoop_spec metric runWith (param_grid.map Prod.fst)
      strategy (itertoolsProduct (param_grid.map Prod.snd)) strategy none []
      (fun _ _ => rfl)
      (fun c hc => by
        rw [itertoolsProduct_mem_length _ c hc]
        simp)
    exact hspec.2.2.2 lastc hlast
  · norm_num [Backtester.optimize, Backtester.optimizeLoop, itertoolsProduct,
      setParams, setattr, dictGet, updateBest, List.find?, strategyW, gridW,
      runWithW]
  · norm_num [Backtester.optimize, Backtester.optimizeLoop, itertoolsProduct,
      setParams, setattr, dictGet, updateBest, List.find?, strategyW, gridW,
      runWithW]
  · norm_num [Backtester.optimize, Backtester.optimizeLoop, itertoolsProduct,
      setParams, setattr, dictGet, updateBest, List.find?, strategyW, gridW,
      runWithW]

/-- Witness for `C10_optimize_leaves_last_combination`: on the concrete
grid the post-call attribute map is the application of the last
combination `w = 2`. -/
theorem C10_optimize_leaves_last_combination_witness :
    (Backtester.optimize strategyW gridW "m" runWithW).final_strategy =
      setParams strategyW ((gridW.map Prod.fst).zip [2]) :=
  C10_optimize_leaves_last_combination.1 strategyW gridW "m" runWithW [2]
    (by simp [itertoolsProduct, gridW, List.getLast?])

/-- C3: the engine calls `prepare_data` once on the whole series but
discards its return value (backtester.py line 418) and slices
`analysis_data` from the raw input (line 427).  For the contract-abiding
copy-based `MovingAverageStrategy` this means: the prepared frame does
carry `short_ma`/`long_ma`, no frame ever handed to `generate_signal`
carries them, and the resulting `KeyError` makes the whole run fail
(`run` returns `none`) — evaluated here on a concrete 5-candle series. -/
theorem C3_generate_signal_sees_raw_frames :
    "short_ma" ∈ ((MovingAverageStrategy 2 3).prepare_data dfInc5).cols ∧
      "long_ma" ∈ ((MovingAverageStrategy 2 3).prepare_data dfInc5).cols ∧
      (∀ i : ℕ, "short_ma" ∉ (Backtester.analysisData dfInc5 i).cols ∧
        "long_ma" ∉ (Backtester.analysisData dfInc5 i).cols) ∧
      Backtester.run (MovingAverageStrategy 2 3) dfInc5 10000 (1 / 10) = none := by
  refine ⟨?_, ?_, ?_, ?_⟩
  · simp [MovingAverageStrategy, MovingAverageStrategy.prepare_data,
      DataFrame.cols, dfInc5]
  · simp [MovingAverageStrategy, MovingAverageStrategy.prepare_data,
      DataFrame.cols, dfInc5]
  · intro i
    have hcols : (Backtester.analysisData dfInc5 i).cols = baseCols := by
      simp [Backtester.analysisData, DataFrame.take, DataFrame.cols, dfInc5]
    rw [hcols]
    constructor <;> decide
  · norm_num [Backtester.run, Backtester.runLoop, Backtester.runCandles,
      Backtester.runStep, Backtester.analysisData, MovingAverageStrategy,
      MovingAverageStrategy.generate_signal, DataFrame.col, DataFrame.take,
      DataFrame.length, dfInc5, List.range_succ, List.find?]

/-- C8 (counterexample): a two-point equity curve spanning zero
elapsed days with a 50% gain.  The annualized-return computation inside
`BacktestResult._calculate_metrics` returns 0 at zero days — not the
raw total return 1/2 that the claim prescribes and that the utility
`calculate_annualized_return` does return on the same curve. -/
theorem C8_metrics_zero_days_counterexample :
    BacktestResult.annualized_return 50 0 = 0 ∧
      calculate_annualized_return [(5, 100), (5, 150)] 365 = 1 / 2 ∧
      (0 : ℝ) ≠ 1 / 2 := by
  refine ⟨?_, ?_, by norm_num⟩
  · simp [BacktestResult.annualized_return]
  · norm_num [calculate_annualized_return, List.getLastD, List.headI]

/-- C8 (amended): for every equity series spanning zero elapsed days,
the utility `calculate_annualized_return` returns the raw total return,
while the inline computation of `BacktestResult._calculate_metrics`
returns 0.0 instead; for a positive number of elapsed days both
compound the total return to a yearly rate with exponent `365 / days`. -/
theorem C8_annualized_return_zero_day_fallback :
    (∀ series : List (ℕ × ℚ), 2 ≤ series.length →
      (series.getLastD (0, 0)).1 - series.headI.1 = 0 →
      calculate_annualized_return series 365 =
        (((series.getLastD (0, 0)).2 / series.headI.2 - 1 : ℚ) : ℝ)) ∧
    (∀ (series : List (ℕ × ℚ)) (d : ℕ), 2 ≤ series.length →
      (series.getLastD (0, 0)).1 - series.headI.1 = d → 0 < d →
      calculate_annualized_return series 365 =
        Real.rpow
          (1 + (((series.getLastD (0, 0)).2 / series.headI.2 - 1 : ℚ) : ℝ))
          ((365 : ℝ) / (d : ℝ)) - 1) ∧
    (∀ tr : ℚ, BacktestResult.annualized_return tr 0 = 0) ∧
    ∀ (tr : ℚ) (d : ℕ), 0 < d →
      BacktestResult.annualized_return tr d =
        Real.rpow (1 + ((tr : ℚ) : ℝ) / 100) ((365 : ℝ) / (d : ℝ)) - 1 := by
  refine ⟨?_, ?_, ?_, ?_⟩
  · intro series hlen hdur
    simp only [calculate_annualized_return]
    rw [if_neg (by omega), hdur]
    simp
  · intro series d hlen hdur hd
    simp only [calculate_annualized_return]
    rw [if_neg (by omega), hdur, if_neg (by omega), one_div_div]
    norm_num
  · intro tr
    simp [BacktestResult.annualized_return]
  · intro tr d hd
    simp [BacktestResult.annualized_return, hd]

/-- Witness for `C8_annualized_return_zero_day_fallback` on concrete
curves: a zero-day curve for the raw-return fallback and a 73-day span
for the compounding branch of the metrics computation. -/
theorem C8_annualized_return_zero_day_fallback_witness :
    calculate_annualized_return [(5, 100), (5, 150)] 365 =
        ((((([(5, 100), (5, 150)] : List (ℕ × ℚ)).getLastD (0, 0)).2 /
          ([(5, 100), (5, 150)] : List (ℕ × ℚ)).headI.2 - 1 : ℚ)) : ℝ) ∧
      BacktestResult.annualized_return 50 73 =
        Real.rpow (1 + ((50 : ℚ) : ℝ) / 100) ((365 : ℝ) / (73 : ℝ)) - 1 :=
  ⟨C8_annualized_return_zero_day_fallback.1 [(5, 100), (5, 150)] (by norm_num)
      (by norm_num [List.getLastD, List.headI]),
    C8_annualized_return_zero_day_fallback.2.2.2 50 73 (by norm_num)⟩

lemma cummaxAux_replicate (c : ℚ) :
    ∀ n, cummaxAux c (List.replicate n c) = List.replicate n c := by
  intro n
  induction n with
  | zero => rfl
  | succ m ih => simp [List.replicate_succ, cummaxAux, max_self, ih]

lemma foldl_min_replicate (c : ℚ) :
    ∀ n, (List.replicate n c).foldl min c = c := by
  intro n
  induction n with
  | zero => rfl
  | succ m ih => simp [List.replicate_succ, min_self, ih]

lemma zipWith_replicate_const (f : ℚ → ℚ → ℚ) (c : ℚ) :
    ∀ n m, List.zipWith f (List.replicate n c) (List.replicate m c) =
      List.replicate (min n m) (f c c) := by
  intro n
  induction n with
  | zero => intro m; simp
  | succ k ih =>
    intro m
    cases m with
    | zero => simp
    | succ j =>
      rw [List.replicate_succ, List.replicate_succ, List.zipWith_cons_cons,
        Nat.succ_min_succ, List.replicate_succ, ih j]

lemma drawdown_replicate (c : ℚ) (n : ℕ) :
    calculate_drawdown (List.replicate n c) = 0 := by
  cases n with
  | zero => simp [calculate_drawdown]
  | succ m =>
    simp only [calculate_drawdown]
    rw [if_neg (by simp)]
    have h1 : cummax (List.replicate (m + 1) c) = List.replicate (m + 1) c := by
      rw [List.replicate_succ]
      simp [cummax, cummaxAux_replicate]
    rw [h1]
    have h2 : List.zipWith (fun e mx => (e - mx) / mx)
        (List.replicate (m + 1) c) (List.replicate (m + 1) c) =
        List.replicate (m + 1) 0 := by
      rw [zipWith_replicate_const]
      simp
    rw [h2, List.replicate_succ]
    show |seriesMin (0 :: List.replicate m 0)| = 0
    rw [show seriesMin (0 :: List.replicate m 0) =
      (List.replicate m (0 : ℚ)).foldl min 0 from rfl]
    rw [foldl_min_replicate]
    simp

lemma pct_change_replicate (c : ℚ) (n : ℕ) :
    pct_change (List.replicate n c) = List.replicate (n - 1) 0 := by
  unfold pct_change
  cases n with
  | zero => simp
  | succ m =>
    rw [List.replicate_succ, List.tail_cons, ← List.replicate_succ,
      zipWith_replicate_const]
    have hmin : min (m + 1) m = m := by omega
    rw [hmin]
    simp

lemma sum_map_ratCast (rs : List ℚ) :
    (rs.map (fun r : ℚ => (r : ℝ))).sum = ((rs.sum : ℚ) : ℝ) := by
  induction rs with
  | nil => simp
  | cons a l ih =>
    simp only [List.map_cons, List.sum_cons, ih]
    push_cast
    ring

lemma sharpe_of_sum_zero (rs : List ℚ) (hsum : rs.sum = 0) :
    calculate_sharpe_ratio rs 0 252 = 0 := by
  simp only [calculate_sharpe_ratio]
  split_ifs with h
  · rfl
  · have hfun : (fun r : ℚ => (r : ℝ) -
        (Real.rpow (1 + ((0 : ℚ) : ℝ)) (1 / ((252 : ℕ) : ℝ)) - 1)) =
        fun r : ℚ => (r : ℝ) := by
      funext r
      norm_num [Real.one_rpow]
    rw [hfun, sum_map_ratCast, hsum]
    simp

/-- C9: every constant (zero-price-movement) equity curve has maximum
drawdown exactly 0 and Sharpe ratio of its per-candle returns exactly
0; and the degenerate inputs whose float computation would produce NaN
— the empty series for drawdown, fewer than two return observations,
or a zero-mean return series (zero-variance constant curves included)
for Sharpe — yield exactly 0 instead of a propagated NaN. -/
theorem C9_flat_curve_zero_ratios :
    (∀ (c : ℚ) (n : ℕ), calculate_drawdown (List.replicate n c) = 0) ∧
      (∀ (c : ℚ) (n : ℕ),
        calculate_sharpe_ratio (pct_change (List.replicate n c)) 0 252 = 0) ∧
      calculate_drawdown [] = 0 ∧
      (∀ returns : List ℚ, returns.length < 2 →
        calculate_sharpe_ratio returns 0 252 = 0) ∧
      ∀ returns : List ℚ, returns.sum = 0 →
        calculate_sharpe_ratio returns 0 252 = 0 := by
  refine ⟨fun c n => drawdown_replicate c n, ?_, by simp [calculate_drawdown],
    ?_, fun rs h => sharpe_of_sum_zero rs h⟩
  · intro c n
    rw [pct_change_replicate]
    exact sharpe_of_sum_zero _ (by simp)
  · intro rs h
    simp [calculate_sharpe_ratio, h]

/-- Witness for `C9_flat_curve_zero_ratios` at a concrete flat curve
and a concrete zero-mean return series. -/
theorem C9_flat_curve_zero_ratios_witness :
    calculate_drawdown (List.replicate 3 5) = 0 ∧
      calculate_sharpe_ratio [0, 0] 0 252 = 0 :=
  ⟨C9_flat_curve_zero_ratios.1 5 3,
    C9_flat_curve_zero_ratios.2.2.2.2 [0, 0] (by norm_num)⟩

end CryptoV4
